import Mathlib

/-!
Shallow embedding of `src/opportunity_comparison_statistics.py` (the Coverage
repository's opportunity-comparison module) and proofs about it.

Modelling conventions:
* Calendar dates (`datetime.date` values after the `pd.to_datetime(...).date()`
  normalisation) are `Int` day indices; `(a - b).days` is `a - b`, adding a
  one-day `Timedelta` is `+ 1`.
* Python `dict`s are association lists in insertion order; inserting a fresh
  key appends, updating an existing key is in place, exactly as a `dict`.
* Python floats are modelled as `ℚ`.
* Code paths that can raise (`ZeroDivisionError` on `len(...) / du.buildings`,
  `KeyError` on `coverage_data.flws[...]`) return `Except String`.
* HTML rendering and file output are boundary I/O (spec §4.3, out of scope);
  `create_opportunity_comparison_report` is modelled up to the filename value
  it returns.
-/

set_option autoImplicit false

namespace Coverage

/-- `models.ServiceDeliveryPoint`, shape per spec §3: only `visit_date` is
consumed here; `none` models a falsy (missing) visit date, which the source
skips via `if point.visit_date:`. -/
structure ServiceDeliveryPoint where
  visit_date : Option Int
deriving Repr, DecidableEq

/-- The value of `du.computed_du_completion_date` as the source's guards see
it: not a `datetime` instance at all (e.g. `None` or a string), a `NaT` that
is a `datetime` instance but whose `.date()` is `pd.isna`, or a genuine
datetime whose calendar date is `day`. -/
inductive CompletionStamp where
  | notDatetime
  | notATime
  | valid (day : Int)
deriving Repr, DecidableEq

/-- `models.DeliveryUnit`, shape per spec §3: the fields this module reads. -/
structure DeliveryUnit where
  du_name : String
  status : String
  computed_du_completion_date : CompletionStamp
  service_points : List Nat
  buildings : Nat
  flw_commcare_id : Nat
deriving Repr, DecidableEq

/-- A field worker; only its `id` is read (`flw.id`). -/
structure FieldWorker where
  id : Nat
deriving Repr, DecidableEq

/-- A service area; only the two flags are read. -/
structure ServiceArea where
  is_started : Bool
  is_completed : Bool
deriving Repr, DecidableEq

/-- `models.CoverageData`, shape per spec §3.  `delivery_units` and
`service_areas` model the `.values()` views of the source's dicts; `flws` is
the id-keyed dict itself (looked up by `flw_commcare_id`).  `dus_per_day` and
`visits_per_day` model `get_average_visits_data()[0]` / `[1]` and
`active_flws_last7days` models `get_active_flws_last7days()`: accessors of the
external `models` collaborator, treated as given input attributes. -/
structure CoverageData where
  opportunity_name : String
  project_space : String
  delivery_units : List DeliveryUnit
  service_points : List ServiceDeliveryPoint
  flws : List (Nat × FieldWorker)
  service_areas : List ServiceArea
  dus_per_day : ℚ
  visits_per_day : ℚ
  active_flws_last7days : Nat
deriving Repr, DecidableEq

/-- Dict lookup: first entry with the given key (keys are unique in every map
this module builds, mirroring Python `dict`). -/
def alistGet {κ α : Type} [DecidableEq κ] (k : κ) : List (κ × α) → Option α
  | [] => none
  | p :: rest => if p.1 = k then some p.2 else alistGet k rest

/-- Dict upsert: update the entry in place when the key exists, append a new
entry otherwise — Python `dict` insertion-order semantics. -/
def alistUpsert {κ α : Type} [DecidableEq κ] (k : κ) (f : Option α → α) :
    List (κ × α) → List (κ × α)
  | [] => [(k, f none)]
  | p :: rest =>
    if p.1 = k then (k, f (some p.2)) :: rest else p :: alistUpsert k f rest

/-- `min(d.keys())`.  Only ever applied to non-empty maps (the source would
raise `ValueError` on an empty one); the `[]` value is irrelevant. -/
def keysMin {α : Type} : List (Int × α) → Int
  | [] => 0
  | p :: rest => rest.foldl (fun acc q => min acc q.1) p.1

/-- `max(d.keys())`, same conventions as `keysMin`. -/
def keysMax {α : Type} : List (Int × α) → Int
  | [] => 0
  | p :: rest => rest.foldl (fun acc q => max acc q.1) p.1

/-- The dates visited by `current_date = first; while current_date <= last:
... current_date += 1 day`. -/
def denseDates (first last : Int) : List Int :=
  (List.range (last - first + 1).toNat).map (fun i : Nat => first + (i : Int))

/-- One point of `service_progress` / `du_progress` (the dicts appended at
lines 210-214 and 236-240 of the source). -/
structure ProgressPoint where
  day : Int
  daily_count : Nat
  cumulative_count : Nat
deriving Repr, DecidableEq

/-- One point of `clumped_progress` (the dict appended at lines 277-284). -/
structure ClumpedPoint where
  day : Int
  daily_count : Nat
  cumulative_count : Nat
  clumped_dus : List DeliveryUnit
  unique_flws_in_lookback : List Nat
  unique_flws_count_in_lookback : Nat
deriving Repr, DecidableEq

/-- The `while current_date <= last_date` loop of the two plain series:
walk the given dates carrying the running cumulative count. -/
def buildSeriesAux (m : List (Int × Nat)) (first : Int) :
    Nat → List Int → List ProgressPoint
  | _, [] => []
  | cum, d :: rest =>
    let daily_count := (alistGet d m).getD 0
    let cum' := cum + daily_count
    { day := d - first, daily_count := daily_count, cumulative_count := cum' }
      :: buildSeriesAux m first cum' rest

/-- `coverage_data.flws[key]`: raises `KeyError` when the key is absent. -/
def lookupFlw (flws : List (Nat × FieldWorker)) (k : Nat) :
    Except String FieldWorker :=
  match alistGet k flws with
  | some fw => Except.ok fw
  | none => Except.error "KeyError"

/-- `set.add`: membership-guarded append (the count of distinct elements, the
only set property consumed, is order-independent). -/
def addUnique (s : List Nat) (x : Nat) : List Nat :=
  if x ∈ s then s else s ++ [x]

/-- The dates visited by the inner lookback loop: `check_date` runs from
`current - (lookback_days - 1)` up to `current` inclusive, i.e. exactly
`lookback_days` iterations (zero when `lookback_days = 0`). -/
def windowDays (current : Int) (lookback_days : Nat) : List Int :=
  (List.range lookback_days).map
    (fun i : Nat => current - ((lookback_days : Int) - 1) + (i : Int))

/-- `for clumped_du in clumped_dus_by_day[check_date]: ...` — resolve each
unit's field worker and add its id to the accumulating set. -/
def collectFlwsAtDay (flws : List (Nat × FieldWorker))
    (dus : List DeliveryUnit) (s : List Nat) : Except String (List Nat) :=
  dus.foldlM (fun acc du => do
    let fw ← lookupFlw flws du.flw_commcare_id
    pure (addUnique acc fw.id)) s

/-- The lookback scan of lines 263-275: the set of unique field-worker ids
over the trailing window ending at `current`. -/
def collectFlws (flws : List (Nat × FieldWorker))
    (clumped_dus_by_day : List (Int × List DeliveryUnit))
    (current : Int) (lookback_days : Nat) : Except String (List Nat) :=
  (windowDays current lookback_days).foldlM (fun s d =>
    match alistGet d clumped_dus_by_day with
    | some dus => collectFlwsAtDay flws dus s
    | none => pure s) []

/-- The `while current_date <= last_clumped_date` loop of the clumped series
(lines 257-287), carrying the running cumulative count. -/
def buildClumpedAux (flws : List (Nat × FieldWorker))
    (m : List (Int × List DeliveryUnit)) (first : Int) (lookback_days : Nat) :
    Nat → List Int → Except String (List ClumpedPoint)
  | _, [] => Except.ok []
  | cum, d :: rest => do
    let dus := (alistGet d m).getD []
    let daily_count := dus.length
    let cum' := cum + daily_count
    let s ← collectFlws flws m d lookback_days
    let tail ← buildClumpedAux flws m first lookback_days cum' rest
    Except.ok ({ day := d - first, daily_count := daily_count,
                 cumulative_count := cum', clumped_dus := dus,
                 unique_flws_in_lookback := s,
                 unique_flws_count_in_lookback := s.length } :: tail)

/-- The body of the per-delivery-unit loop (lines 166-193): bump the
completion bucket and, when the clumping test fires, the clumped bucket.
The division `len(du.service_points) / du.buildings` raises
`ZeroDivisionError` when `du.buildings == 0`. -/
def processDU (clumping_ratio : ℚ)
    (acc : List (Int × Nat) × List (Int × List DeliveryUnit))
    (du : DeliveryUnit) :
    Except String (List (Int × Nat) × List (Int × List DeliveryUnit)) :=
  if du.status = "completed" then
    match du.computed_du_completion_date with
    | CompletionStamp.valid completion_date =>
      let duMap := alistUpsert completion_date (fun o => o.getD 0 + 1) acc.1
      if du.buildings = 0 then Except.error "ZeroDivisionError"
      else
        let clumping_value : ℚ :=
          (du.service_points.length : ℚ) / (du.buildings : ℚ)
        let clMap :=
          if clumping_ratio < clumping_value then
            alistUpsert completion_date (fun o => o.getD [] ++ [du]) acc.2
          else acc.2
        Except.ok (duMap, clMap)
    | _ => Except.ok acc
  else Except.ok acc

/-- Lines 153-159: bucket service-point visits by calendar date. -/
def bucketServiceDeliveries (points : List ServiceDeliveryPoint) :
    List (Int × Nat) :=
  points.foldl (fun m p =>
    match p.visit_date with
    | some d => alistUpsert d (fun o => o.getD 0 + 1) m
    | none => m) []

/-- The `progress_data` result dict of `_generate_progress_data`: five series
maps keyed by opportunity name. -/
structure ProgressData where
  service_delivery_progress : List (String × List ProgressPoint)
  du_completion_progress : List (String × List ProgressPoint)
  cumulative_service_delivery : List (String × List ProgressPoint)
  cumulative_du_completion : List (String × List ProgressPoint)
  clumped_dus_progress : List (String × List ClumpedPoint)
deriving Repr, DecidableEq

/-- The initial `progress_data` of lines 141-147. -/
def emptyProgressData : ProgressData :=
  { service_delivery_progress := []
    du_completion_progress := []
    cumulative_service_delivery := []
    cumulative_du_completion := []
    clumped_dus_progress := [] }

/-- One iteration of the `for project_key, coverage_data in ...` loop of
`_generate_progress_data` (lines 149-289).  The clumped block anchors its walk
at `first_completion_date` — the completion series' first bucketed date — as
the source does at line 256.  (When `clumped_dus_by_day` is non-empty so is
`du_completion_by_day`, every clumped insertion being preceded by a completion
bump, so `keysMin du_completion_by_day` is this project's first completion
date.) -/
def processProject (clumping_ratio : ℚ) (lookback_days : Nat)
    (pd : ProgressData) (cd : CoverageData) : Except String ProgressData :=
  let service_delivery_by_day := bucketServiceDeliveries cd.service_points
  match cd.delivery_units.foldlM (processDU clumping_ratio) ([], []) with
  | Except.error e => Except.error e
  | Except.ok (du_completion_by_day, clumped_dus_by_day) =>
    let pd1 :=
      if service_delivery_by_day = [] then pd
      else
        let first_service_date := keysMin service_delivery_by_day
        let last_service_date := keysMax service_delivery_by_day
        let service_progress :=
          buildSeriesAux service_delivery_by_day first_service_date 0
            (denseDates first_service_date last_service_date)
        { pd with
          service_delivery_progress :=
            alistUpsert cd.opportunity_name (fun _ => service_progress)
              pd.service_delivery_progress
          cumulative_service_delivery :=
            alistUpsert cd.opportunity_name (fun _ => service_progress)
              pd.cumulative_service_delivery }
    let pd2 :=
      if du_completion_by_day = [] then pd1
      else
        let first_completion_date := keysMin du_completion_by_day
        let last_completion_date := keysMax du_completion_by_day
        let du_progress :=
          buildSeriesAux du_completion_by_day first_completion_date 0
            (denseDates first_completion_date last_completion_date)
        { pd1 with
          du_completion_progress :=
            alistUpsert cd.opportunity_name (fun _ => du_progress)
              pd1.du_completion_progress
          cumulative_du_completion :=
            alistUpsert cd.opportunity_name (fun _ => du_progress)
              pd1.cumulative_du_completion }
    if clumped_dus_by_day = [] then Except.ok pd2
    else
      let first_completion_date := keysMin du_completion_by_day
      let last_clumped_date := keysMax clumped_dus_by_day
      match buildClumpedAux cd.flws clumped_dus_by_day first_completion_date
        lookback_days 0 (denseDates first_completion_date last_clumped_date) with
      | Except.error e => Except.error e
      | Except.ok clumped_progress =>
        Except.ok { pd2 with
          clumped_dus_progress :=
            alistUpsert cd.opportunity_name (fun _ => clumped_progress)
              pd2.clumped_dus_progress }

/-- `_generate_progress_data`: fold the per-project loop over the values of
the input map (the project key is only ever the `getattr` default for a
missing `opportunity_name`, modelled as a required field per spec §9). -/
def generate_progress_data (coverage_data_objects : List CoverageData)
    (clumping_ratio : ℚ) (lookback_days : Nat) : Except String ProgressData :=
  coverage_data_objects.foldlM (processProject clumping_ratio lookback_days)
    emptyProgressData

/-- The per-project `project_stats` dict of `_generate_comparison_statistics`
(lines 82-107). -/
structure ProjectStats where
  opportunity_name : String
  project_space : String
  delivery_units_count : Nat
  service_points_count : Nat
  visits_per_day : ℚ
  completed_dus_count : Nat
  dus_per_day : ℚ
  total_flws : Nat
  total_service_areas : Nat
  started_sas_count : Nat
  completed_sas_count : Nat
  active_flw_last7days : Nat
  coverage_percentage : ℚ
  pct_active_flw_last7days : ℚ
deriving Repr, DecidableEq

/-- Lines 82-107: build one project's stats, including the two zero-guarded
percentages. -/
def projectStats (project_key : String) (cd : CoverageData) : ProjectStats :=
  let delivery_units_count :=
    if cd.delivery_units = [] then 0 else cd.delivery_units.length
  let completed_dus_count :=
    if cd.delivery_units = [] then 0
    else (cd.delivery_units.filter (fun du => du.status == "completed")).length
  let total_flws := if cd.flws = [] then 0 else cd.flws.length
  let active_flw_last7days := cd.active_flws_last7days
  { opportunity_name := cd.opportunity_name
    project_space := cd.project_space
    delivery_units_count := delivery_units_count
    service_points_count :=
      if cd.service_points = [] then 0 else cd.service_points.length
    visits_per_day := cd.visits_per_day
    completed_dus_count := completed_dus_count
    dus_per_day := cd.dus_per_day
    total_flws := total_flws
    total_service_areas :=
      if cd.service_areas = [] then 0 else cd.service_areas.length
    started_sas_count :=
      if cd.service_areas = [] then 0
      else (cd.service_areas.filter (fun sa => sa.is_started)).length
    completed_sas_count :=
      if cd.service_areas = [] then 0
      else (cd.service_areas.filter (fun sa => sa.is_completed)).length
    active_flw_last7days := active_flw_last7days
    coverage_percentage :=
      if delivery_units_count > 0 then
        ((completed_dus_count : ℚ) / (delivery_units_count : ℚ)) * 100
      else 0
    pct_active_flw_last7days :=
      if total_flws > 0 then
        ((active_flw_last7days : ℚ) / (total_flws : ℚ)) * 100
      else 0 }

/-- The `summary_comparisons` dict of lines 115-124. -/
structure SummaryComparisons where
  total_delivery_units : Nat
  total_service_points : Nat
  total_completed_dus : Nat
  total_service_areas : Nat
  total_started_sas : Nat
  total_completed_sas : Nat
  average_coverage : ℚ
  total_flws : Nat
deriving Repr, DecidableEq

/-- The `stats` dict returned by `_generate_comparison_statistics`. -/
structure ComparisonStats where
  project_count : Nat
  projects : List (String × ProjectStats)
  summary_comparisons : SummaryComparisons
deriving Repr, DecidableEq

/-- `_generate_comparison_statistics` (lines 64-126): per-project stats keyed
by project key, then cross-project sums and the unweighted coverage mean. -/
def generate_comparison_statistics (coverage_data_objects : List (String × CoverageData)) :
    ComparisonStats :=
  let projects := coverage_data_objects.foldl
    (fun m p => alistUpsert p.1 (fun _ => projectStats p.1 p.2) m) []
  { project_count := coverage_data_objects.length
    projects := projects
    summary_comparisons :=
      { total_delivery_units :=
          (projects.map (fun p => p.2.delivery_units_count)).sum
        total_service_points :=
          (projects.map (fun p => p.2.service_points_count)).sum
        total_completed_dus :=
          (projects.map (fun p => p.2.completed_dus_count)).sum
        total_service_areas :=
          (projects.map (fun p => p.2.total_service_areas)).sum
        total_started_sas :=
          (projects.map (fun p => p.2.started_sas_count)).sum
        total_completed_sas :=
          (projects.map (fun p => p.2.completed_sas_count)).sum
        average_coverage :=
          if projects = [] then 0
          else (projects.map (fun p => p.2.coverage_percentage)).sum
            / (projects.length : ℚ)
        total_flws := (projects.map (fun p => p.2.total_flws)).sum } }

/-- `create_opportunity_comparison_report` (lines 28-61): `none` (Python
`None`) with no artifact when the input map is empty, otherwise run both
stages and return the report filename.  HTML rendering and the file write are
boundary I/O, out of scope per spec §4.3. -/
def create_opportunity_comparison_report
    (coverage_data_objects : List (String × CoverageData))
    (clumping_ratio : ℚ) (lookback_days : Nat) :
    Except String (Option String) :=
  if coverage_data_objects.length < 1 then Except.ok none
  else
    let _comparison_stats := generate_comparison_statistics coverage_data_objects
    match generate_progress_data (coverage_data_objects.map Prod.snd)
      clumping_ratio lookback_days with
    | Except.error e => Except.error e
    | Except.ok _progress_data =>
      Except.ok (some "opportunity_comparison_report.html")

/-- Equality of `Except` results is decidable, so concrete runs of the
pipeline can be checked by `decide`. -/
instance instDecEqExcept {ε α : Type} [DecidableEq ε] [DecidableEq α] :
    DecidableEq (Except ε α) := fun x y =>
  match x, y with
  | Except.error a, Except.error b =>
    if h : a = b then Decidable.isTrue (by rw [h])
    else Decidable.isFalse (fun hh => h (Except.error.inj hh))
  | Except.error _, Except.ok _ => Decidable.isFalse (fun hh => Except.noConfusion hh)
  | Except.ok _, Except.error _ => Decidable.isFalse (fun hh => Except.noConfusion hh)
  | Except.ok a, Except.ok b =>
    if h : a = b then Decidable.isTrue (by rw [h])
    else Decidable.isFalse (fun hh => h (Except.ok.inj hh))

/-! ### Properties stated by the spec, as predicates on emitted values -/

/-- The spec's dense-walk shape for a plain series relative to an anchor date:
one point per calendar day from `anchor` to the map's last bucketed date
inclusive, point `i` carrying day offset `i` and the bucket count of the date
`anchor + i` (so offset = current date − anchor, and missing days count 0). -/
def denseFrom (anchor : Int) (m : List (Int × Nat)) (s : List ProgressPoint) : Prop :=
  s.length = (keysMax m - anchor + 1).toNat ∧
  ∀ i : Fin s.length, (s.get i).day = ((i : Nat) : Int) ∧
    (s.get i).daily_count = (alistGet (anchor + ((i : Nat) : Int)) m).getD 0

instance (anchor : Int) (m : List (Int × Nat)) (s : List ProgressPoint) :
    Decidable (denseFrom anchor m s) := by
  unfold denseFrom; infer_instance

/-- The same dense-walk shape for the clumped series: point `i`'s daily count
is the number of clumped units bucketed on `anchor + i`. -/
def clumpedDenseFrom (anchor : Int) (m : List (Int × List DeliveryUnit))
    (s : List ClumpedPoint) : Prop :=
  s.length = (keysMax m - anchor + 1).toNat ∧
  ∀ i : Fin s.length, (s.get i).day = ((i : Nat) : Int) ∧
    (s.get i).daily_count = ((alistGet (anchor + ((i : Nat) : Int)) m).getD []).length

instance (anchor : Int) (m : List (Int × List DeliveryUnit)) (s : List ClumpedPoint) :
    Decidable (clumpedDenseFrom anchor m s) := by
  unfold clumpedDenseFrom; infer_instance

/-- Modelled from the spec's words (§4.2 step 4): collect every clumped
delivery unit whose completion date lies in the inclusive window
`[d − (lookback_days − 1), d]`, resolve each to its field worker via the
Field Worker mapping, and count distinct worker identifiers. -/
def specUniqueWorkerCount (flws : List (Nat × FieldWorker))
    (clumped_dus_by_day : List (Int × List DeliveryUnit))
    (d : Int) (lookback_days : Nat) : Nat :=
  ((((clumped_dus_by_day.filter (fun e =>
        decide (d - ((lookback_days : Int) - 1) ≤ e.1) && decide (e.1 ≤ d))).bind
      Prod.snd).filterMap
    (fun du => (alistGet du.flw_commcare_id flws).map FieldWorker.id)).toFinset).card

/-- The spec's §8 cumulative-sum property of one series: the last point's
cumulative count is the sum of all daily counts, and cumulative counts never
decrease between consecutive points. -/
def seriesSummed (pts : List ProgressPoint) : Prop :=
  (∀ h : pts ≠ [], (pts.getLast h).cumulative_count
      = (pts.map (fun p => p.daily_count)).sum) ∧
  List.Chain' (fun a b => a.cumulative_count ≤ b.cumulative_count) pts

/-- `seriesSummed` for the clumped series' points. -/
def clumpedSummed (pts : List ClumpedPoint) : Prop :=
  (∀ h : pts ≠ [], (pts.getLast h).cumulative_count
      = (pts.map (fun p => p.daily_count)).sum) ∧
  List.Chain' (fun a b => a.cumulative_count ≤ b.cumulative_count) pts

/-- A plain series as the builder emits it: some bucket map, some anchor,
some date walk, cumulative count started at 0. -/
def builtSeries (s : List ProgressPoint) : Prop :=
  ∃ m first ds, s = buildSeriesAux m first 0 ds

/-- A clumped series as the builder emits it. -/
def builtClumped (s : List ClumpedPoint) : Prop :=
  ∃ flws m first L ds, buildClumpedAux flws m first L 0 ds = Except.ok s

/-! ### Concrete data for counterexamples and witnesses -/

/-- A completed delivery unit, 11 service points over 1 building. -/
def duEleven : DeliveryUnit :=
  { du_name := "a", status := "completed",
    computed_du_completion_date := CompletionStamp.valid 5,
    service_points := List.range 11, buildings := 1, flw_commcare_id := 1 }

/-- The same unit with 10 service points: clumping value exactly 10.0. -/
def duTen : DeliveryUnit := { duEleven with service_points := List.range 10 }

/-- A completed, validly dated unit with building count 0. -/
def duZeroBuildings : DeliveryUnit := { duEleven with buildings := 0 }

/-- A project holding only `duZeroBuildings`. -/
def cdZeroBuildings : CoverageData :=
  { opportunity_name := "P0", project_space := "S",
    delivery_units := [duZeroBuildings], service_points := [],
    flws := [(1, { id := 1 })], service_areas := [],
    dus_per_day := 0, visits_per_day := 0, active_flws_last7days := 0 }

/-- A unit whose completed status carries no usable datetime. -/
def duNoStamp : DeliveryUnit :=
  { du_name := "n", status := "completed",
    computed_du_completion_date := CompletionStamp.notDatetime,
    service_points := List.range 30, buildings := 1, flw_commcare_id := 1 }

/-- Completed on day 0, one service point over one building: not clumped. -/
def duEarly : DeliveryUnit :=
  { du_name := "A", status := "completed",
    computed_du_completion_date := CompletionStamp.valid 0,
    service_points := [7], buildings := 1, flw_commcare_id := 1 }

/-- Completed on day 2, twenty service points over one building: clumped. -/
def duLate : DeliveryUnit :=
  { du_name := "B", status := "completed",
    computed_du_completion_date := CompletionStamp.valid 2,
    service_points := List.range 20, buildings := 1, flw_commcare_id := 2 }

/-- A project whose first completion (day 0) is not clumped while its only
clumped completion is on day 2. -/
def cdAnchor : CoverageData :=
  { opportunity_name := "P2", project_space := "S",
    delivery_units := [duEarly, duLate], service_points := [],
    flws := [(1, { id := 1 }), (2, { id := 2 })], service_areas := [],
    dus_per_day := 0, visits_per_day := 0, active_flws_last7days := 0 }

/-- The progress data the pipeline emits for `cdAnchor`. -/
def pdAnchor : ProgressData :=
  (processProject 10 10 emptyProgressData cdAnchor).toOption.getD emptyProgressData

/-- `cdAnchor`'s clumped bucket map (`clumped_dus_by_day`). -/
def clMapAnchor : List (Int × List DeliveryUnit) :=
  ((cdAnchor.delivery_units.foldlM (processDU 10) ([], [])).toOption.getD ([], [])).2

/-- `cdAnchor`'s completion bucket map (`du_completion_by_day`). -/
def duMapAnchor : List (Int × Nat) :=
  ((cdAnchor.delivery_units.foldlM (processDU 10) ([], [])).toOption.getD ([], [])).1

/-- The clumped series emitted for `cdAnchor`. -/
def cpAnchor : List ClumpedPoint :=
  (alistGet "P2" pdAnchor.clumped_dus_progress).getD []

/-- `cdAnchor` with an invalidly dated completed unit inserted mid-list. -/
def cdAnchorPlus : CoverageData :=
  { cdAnchor with delivery_units := [duEarly, duNoStamp, duLate] }

/-- A small project with service deliveries and completions, used to witness
the end-to-end theorems. -/
def cdSmall : CoverageData :=
  { opportunity_name := "PW", project_space := "S",
    delivery_units := [duEarly, duLate],
    service_points := [⟨some 1⟩, ⟨some 1⟩, ⟨some 3⟩, ⟨none⟩],
    flws := [(1, { id := 1 }), (2, { id := 2 })],
    service_areas := [{ is_started := true, is_completed := false }],
    dus_per_day := 0, visits_per_day := 0, active_flws_last7days := 1 }

/-- The progress data emitted for `cdSmall` with lookback 3. -/
def pdSmall : ProgressData :=
  (generate_progress_data [cdSmall] 10 3).toOption.getD emptyProgressData

/-- `cdSmall`'s completion bucket map. -/
def duMapSmall : List (Int × Nat) :=
  ((cdSmall.delivery_units.foldlM (processDU 10) ([], [])).toOption.getD ([], [])).1

/-- `cdSmall`'s clumped bucket map. -/
def clMapSmall : List (Int × List DeliveryUnit) :=
  ((cdSmall.delivery_units.foldlM (processDU 10) ([], [])).toOption.getD ([], [])).2

/-- A two-project input map with distinct keys. -/
def objsPair : List (String × CoverageData) := [("p1", cdSmall), ("p2", cdAnchor)]

/-- A two-worker Field Worker mapping. -/
def flwsPair : List (Nat × FieldWorker) := [(1, { id := 1 }), (2, { id := 2 })]

/-- Worker 1's clumped completion on day 0. -/
def duDayZero : DeliveryUnit :=
  { du_name := "w1", status := "completed",
    computed_du_completion_date := CompletionStamp.valid 0,
    service_points := List.range 12, buildings := 1, flw_commcare_id := 1 }

/-- Worker 2's clumped completion on day 2. -/
def duDayTwo : DeliveryUnit :=
  { du_name := "w2", status := "completed",
    computed_du_completion_date := CompletionStamp.valid 2,
    service_points := List.range 12, buildings := 1, flw_commcare_id := 2 }

/-- The spec's §8 lookback example: clumped completions on days 0 and 2. -/
def clMapLookback : List (Int × List DeliveryUnit) := [(0, [duDayZero]), (2, [duDayTwo])]

/-- The clumped series over days 0..4 with lookback 3 for `clMapLookback`. -/
def cpLookback : List ClumpedPoint :=
  (buildClumpedAux flwsPair clMapLookback 0 3 0 (denseDates 0 4)).toOption.getD []

/-! ### Lemmas -/

/-- A completed unit with no usable completion datetime leaves both bucket
maps untouched and raises nothing (lines 168 and 191-193 of the source). -/
theorem processDU_skip (clumping_ratio : ℚ)
    (acc : List (Int × Nat) × List (Int × List DeliveryUnit))
    (du : DeliveryUnit) (hst : du.status = "completed")
    (hdate : du.computed_du_completion_date = CompletionStamp.notDatetime ∨
      du.computed_du_completion_date = CompletionStamp.notATime) :
    processDU clumping_ratio acc du = Except.ok acc := by
  rcases hdate with h | h <;> simp [processDU, hst, h]

/-- An invariant preserved by every successful step of a monadic fold over
`Except` holds of every successful fold result. -/
theorem foldlM_except_invariant {α β : Type} (P : β → Prop)
    (f : β → α → Except String β)
    (hstep : ∀ b a b', P b → f b a = Except.ok b' → P b')
    (l : List α) : ∀ b b' : β, P b → l.foldlM f b = Except.ok b' → P b' := by
  induction l with
  | nil =>
    intro b b' hb h
    rw [List.foldlM_nil] at h
    cases h
    exact hb
  | cons a l ih =>
    intro b b' hb h
    rw [List.foldlM_cons] at h
    cases hfa : f b a with
    | error e =>
      rw [hfa] at h
      simp only [Bind.bind, Except.bind] at h
      cases h
    | ok b2 =>
      rw [hfa] at h
      simp only [Bind.bind, Except.bind] at h
      exact ih b2 b' (hstep b a b2 hb hfa) h

theorem alistUpsert_ne_nil {κ α : Type} [DecidableEq κ] (k : κ) (f : Option α → α)
    (m : List (κ × α)) : alistUpsert k f m ≠ [] := by
  cases m with
  | nil => simp [alistUpsert]
  | cons p rest =>
    simp only [alistUpsert]
    split <;> simp

theorem alistGet_upsert_self {κ α : Type} [DecidableEq κ] (k : κ) (f : Option α → α)
    (m : List (κ × α)) : alistGet k (alistUpsert k f m) = some (f (alistGet k m)) := by
  induction m with
  | nil => simp [alistGet, alistUpsert]
  | cons p rest ih =>
    by_cases h : p.1 = k
    · simp [alistGet, alistUpsert, h]
    · simp [alistGet, alistUpsert, h, ih]

theorem mem_alistUpsert_const {κ α : Type} [DecidableEq κ] {k : κ} {v : α}
    {m : List (κ × α)} {e : κ × α} (he : e ∈ alistUpsert k (fun _ => v) m) :
    e ∈ m ∨ e = (k, v) := by
  induction m with
  | nil => simpa [alistUpsert] using he
  | cons p rest ih =>
    simp only [alistUpsert] at he
    split at he
    · rcases List.mem_cons.mp he with h | h
      · exact Or.inr h
      · exact Or.inl (List.mem_cons_of_mem _ h)
    · rcases List.mem_cons.mp he with h | h
      · exact Or.inl (h ▸ List.mem_cons_self _ _)
      · rcases ih h with h' | h'
        · exact Or.inl (List.mem_cons_of_mem _ h')
        · exact Or.inr h'

theorem mem_of_alistGet_eq_some {κ α : Type} [DecidableEq κ] {m : List (κ × α)}
    {k : κ} {v : α} (h : alistGet k m = some v) : (k, v) ∈ m := by
  induction m with
  | nil => simp [alistGet] at h
  | cons p rest ih =>
    simp only [alistGet] at h
    split at h
    · rename_i hk
      cases h
      exact hk ▸ List.mem_cons_self _ _
    · exact List.mem_cons_of_mem _ (ih h)

theorem alistGet_eq_some_of_mem_nodup {κ α : Type} [DecidableEq κ] {m : List (κ × α)}
    {k : κ} {v : α} (hk : (m.map Prod.fst).Nodup) (hmem : (k, v) ∈ m) :
    alistGet k m = some v := by
  induction m with
  | nil => simp at hmem
  | cons p rest ih =>
    simp only [List.map_cons, List.nodup_cons] at hk
    rcases List.mem_cons.mp hmem with h | h
    · simp [alistGet, ← h]
    · have hne : p.1 ≠ k := by
        intro hpk
        exact hk.1 (hpk ▸ List.mem_map.mpr ⟨(k, v), h, rfl⟩)
      simp [alistGet, hne, ih hk.2 h]

theorem foldl_min_mem {α : Type} (rest : List (Int × α)) :
    ∀ a : Int, rest.foldl (fun acc q => min acc q.1) a = a ∨
      ∃ v, (rest.foldl (fun acc q => min acc q.1) a, v) ∈ rest := by
  induction rest with
  | nil => intro a; exact Or.inl rfl
  | cons q rest ih =>
    intro a
    rw [List.foldl_cons]
    rcases ih (min a q.1) with h | ⟨v, hv⟩
    · rw [h]
      rcases le_total a q.1 with hle | hle
      · exact Or.inl (min_eq_left hle)
      · refine Or.inr ⟨q.2, ?_⟩
        rw [min_eq_right hle]
        exact List.mem_cons_self _ _
    · exact Or.inr ⟨v, List.mem_cons_of_mem _ hv⟩

theorem foldl_max_mem {α : Type} (rest : List (Int × α)) :
    ∀ a : Int, rest.foldl (fun acc q => max acc q.1) a = a ∨
      ∃ v, (rest.foldl (fun acc q => max acc q.1) a, v) ∈ rest := by
  induction rest with
  | nil => intro a; exact Or.inl rfl
  | cons q rest ih =>
    intro a
    rw [List.foldl_cons]
    rcases ih (max a q.1) with h | ⟨v, hv⟩
    · rw [h]
      rcases le_total q.1 a with hle | hle
      · exact Or.inl (max_eq_left hle)
      · refine Or.inr ⟨q.2, ?_⟩
        rw [max_eq_right hle]
        exact List.mem_cons_self _ _
    · exact Or.inr ⟨v, List.mem_cons_of_mem _ hv⟩

theorem keysMin_mem {α : Type} {m : List (Int × α)} (hm : m ≠ []) :
    ∃ v, (keysMin m, v) ∈ m := by
  cases m with
  | nil => exact absurd rfl hm
  | cons p rest =>
    show ∃ v, (rest.foldl (fun acc q => min acc q.1) p.1, v) ∈ p :: rest
    rcases foldl_min_mem rest p.1 with h | ⟨v, hv⟩
    · exact ⟨p.2, by rw [h]; exact List.mem_cons_self _ _⟩
    · exact ⟨v, List.mem_cons_of_mem _ hv⟩

theorem keysMax_mem {α : Type} {m : List (Int × α)} (hm : m ≠ []) :
    ∃ v, (keysMax m, v) ∈ m := by
  cases m with
  | nil => exact absurd rfl hm
  | cons p rest =>
    show ∃ v, (rest.foldl (fun acc q => max acc q.1) p.1, v) ∈ p :: rest
    rcases foldl_max_mem rest p.1 with h | ⟨v, hv⟩
    · exact ⟨p.2, by rw [h]; exact List.mem_cons_self _ _⟩
    · exact ⟨v, List.mem_cons_of_mem _ hv⟩

theorem denseDates_length (first last : Int) :
    (denseDates first last).length = (last - first + 1).toNat := by
  rw [denseDates, List.length_map, List.length_range]

theorem denseDates_get (first last : Int) (i : Nat)
    (h : i < (denseDates first last).length) :
    (denseDates first last).get ⟨i, h⟩ = first + (i : Int) := by
  simp only [denseDates, List.get_eq_getElem, List.getElem_map, List.getElem_range]

theorem buildSeriesAux_length (m : List (Int × Nat)) (first : Int) :
    ∀ (ds : List Int) (cum : Nat), (buildSeriesAux m first cum ds).length = ds.length := by
  intro ds
  induction ds with
  | nil => intro cum; rfl
  | cons d rest ih => intro cum; simp [buildSeriesAux, ih]

theorem buildSeriesAux_get (m : List (Int × Nat)) (first : Int) :
    ∀ (ds : List Int) (cum : Nat) (i : Nat)
      (h : i < (buildSeriesAux m first cum ds).length) (h' : i < ds.length),
      ((buildSeriesAux m first cum ds).get ⟨i, h⟩).day = ds.get ⟨i, h'⟩ - first ∧
      ((buildSeriesAux m first cum ds).get ⟨i, h⟩).daily_count
        = (alistGet (ds.get ⟨i, h'⟩) m).getD 0 := by
  intro ds
  induction ds with
  | nil => intro cum i h h'; simp at h'
  | cons d rest ih =>
    intro cum i h h'
    cases i with
    | zero => exact ⟨rfl, rfl⟩
    | succ j =>
      have hj : j < (buildSeriesAux m first
          (cum + (alistGet d m).getD 0) rest).length := by
        rw [buildSeriesAux_length]
        simpa using h'
      have hj' : j < rest.length := by simpa using h'
      exact ih (cum + (alistGet d m).getD 0) j hj hj'

theorem buildSeriesAux_getLast? (m : List (Int × Nat)) (first : Int) :
    ∀ (ds : List Int) (cum : Nat), ds ≠ [] →
      ((buildSeriesAux m first cum ds).getLast?).map (fun p => p.cumulative_count)
        = some (cum + ((buildSeriesAux m first cum ds).map (fun p => p.daily_count)).sum) := by
  intro ds
  induction ds with
  | nil => intro cum h; exact absurd rfl h
  | cons d rest ih =>
    intro cum _
    by_cases hr : rest = []
    · subst hr
      simp [buildSeriesAux]
    · have hcons : buildSeriesAux m first cum (d :: rest)
          = { day := d - first, daily_count := (alistGet d m).getD 0,
              cumulative_count := cum + (alistGet d m).getD 0 }
            :: buildSeriesAux m first (cum + (alistGet d m).getD 0) rest := rfl
      cases hrest : buildSeriesAux m first (cum + (alistGet d m).getD 0) rest with
      | nil =>
        have := buildSeriesAux_length m first rest (cum + (alistGet d m).getD 0)
        rw [hrest] at this
        exact absurd (List.length_eq_zero.mp this.symm) hr
      | cons q qs =>
        have hih := ih (cum + (alistGet d m).getD 0) hr
        rw [hrest] at hih
        rw [hcons, hrest, List.getLast?_cons_cons, hih]
        simp only [List.map_cons, List.sum_cons, Option.some.injEq]
        omega

theorem buildSeriesAux_head_cum (m : List (Int × Nat)) (first : Int)
    (ds : List Int) (cum : Nat) {p : ProgressPoint}
    (h : (buildSeriesAux m first cum ds).head? = some p) :
    cum ≤ p.cumulative_count := by
  cases ds with
  | nil => simp [buildSeriesAux] at h
  | cons d rest =>
    have : (buildSeriesAux m first cum (d :: rest)).head?
        = some { day := d - first, daily_count := (alistGet d m).getD 0,
                 cumulative_count := cum + (alistGet d m).getD 0 } := rfl
    rw [this] at h
    cases h
    exact Nat.le_add_right _ _

theorem buildSeriesAux_chain (m : List (Int × Nat)) (first : Int) :
    ∀ (ds : List Int) (cum : Nat),
      List.Chain' (fun a b => a.cumulative_count ≤ b.cumulative_count)
        (buildSeriesAux m first cum ds) := by
  intro ds
  induction ds with
  | nil => intro cum; simp [buildSeriesAux]
  | cons d rest ih =>
    intro cum
    rw [show buildSeriesAux m first cum (d :: rest)
        = { day := d - first, daily_count := (alistGet d m).getD 0,
            cumulative_count := cum + (alistGet d m).getD 0 }
          :: buildSeriesAux m first (cum + (alistGet d m).getD 0) rest from rfl]
    refine List.chain'_cons'.mpr ⟨?_, ih _⟩
    intro q hq
    exact buildSeriesAux_head_cum m first rest _ hq

/-- Any series produced by `buildSeriesAux` starting from cumulative count 0
satisfies the spec's §8 cumulative-sum property. -/
theorem buildSeriesAux_summed (m : List (Int × Nat)) (first : Int) (ds : List Int) :
    seriesSummed (buildSeriesAux m first 0 ds) := by
  constructor
  · intro h
    have hds : ds ≠ [] := by
      intro hnil
      exact h (by rw [hnil]; rfl)
    have := buildSeriesAux_getLast? m first ds 0 hds
    rw [List.getLast?_eq_getLast _ h] at this
    simpa using this
  · exact buildSeriesAux_chain m first ds 0

theorem buildClumpedAux_cons_ok {flws : List (Nat × FieldWorker)}
    {m : List (Int × List DeliveryUnit)} {first : Int} {L : Nat}
    {cum : Nat} {d : Int} {rest : List Int} {cp : List ClumpedPoint} :
    buildClumpedAux flws m first L cum (d :: rest) = Except.ok cp ↔
    ∃ s tail, collectFlws flws m d L = Except.ok s ∧
      buildClumpedAux flws m first L (cum + ((alistGet d m).getD []).length) rest
        = Except.ok tail ∧
      cp = { day := d - first,
             daily_count := ((alistGet d m).getD []).length,
             cumulative_count := cum + ((alistGet d m).getD []).length,
             clumped_dus := (alistGet d m).getD [],
             unique_flws_in_lookback := s,
             unique_flws_count_in_lookback := s.length } :: tail := by
  constructor
  · intro h
    cases hs : collectFlws flws m d L with
    | error e =>
      simp only [buildClumpedAux, hs, Bind.bind, Except.bind] at h
      exact Except.noConfusion h
    | ok s =>
      cases ht : buildClumpedAux flws m first L
          (cum + ((alistGet d m).getD []).length) rest with
      | error e =>
        simp only [buildClumpedAux, hs, ht, Bind.bind, Except.bind] at h
        exact Except.noConfusion h
      | ok tail =>
        simp only [buildClumpedAux, hs, ht, Bind.bind, Except.bind,
          Except.ok.injEq] at h
        exact ⟨s, tail, rfl, rfl, h.symm⟩
  · rintro ⟨s, tail, hs, ht, rfl⟩
    simp only [buildClumpedAux, hs, ht, Bind.bind, Except.bind]

theorem buildClumpedAux_length {flws : List (Nat × FieldWorker)}
    {m : List (Int × List DeliveryUnit)} {first : Int} {L : Nat} :
    ∀ {ds : List Int} {cum : Nat} {cp : List ClumpedPoint},
      buildClumpedAux flws m first L cum ds = Except.ok cp → cp.length = ds.length := by
  intro ds
  induction ds with
  | nil =>
    intro cum cp h
    cases h
    rfl
  | cons d rest ih =>
    intro cum cp h
    obtain ⟨s, tail, _, ht, rfl⟩ := buildClumpedAux_cons_ok.mp h
    simp [ih ht]

theorem buildClumpedAux_get {flws : List (Nat × FieldWorker)}
    {m : List (Int × List DeliveryUnit)} {first : Int} {L : Nat} :
    ∀ (ds : List Int) (cum : Nat) (cp : List ClumpedPoint),
      buildClumpedAux flws m first L cum ds = Except.ok cp →
      ∀ (i : Nat) (hi : i < cp.length) (hd : i < ds.length),
        (cp.get ⟨i, hi⟩).day = ds.get ⟨i, hd⟩ - first ∧
        (cp.get ⟨i, hi⟩).daily_count = ((alistGet (ds.get ⟨i, hd⟩) m).getD []).length ∧
        ∃ s, collectFlws flws m (ds.get ⟨i, hd⟩) L = Except.ok s ∧
          (cp.get ⟨i, hi⟩).unique_flws_in_lookback = s ∧
          (cp.get ⟨i, hi⟩).unique_flws_count_in_lookback = s.length := by
  intro ds
  induction ds with
  | nil => intro cum cp h i hi hd; simp at hd
  | cons d rest ih =>
    intro cum cp h i hi hd
    obtain ⟨s, tail, hs, ht, rfl⟩ := buildClumpedAux_cons_ok.mp h
    cases i with
    | zero => exact ⟨rfl, rfl, s, hs, rfl, rfl⟩
    | succ j =>
      have hj : j < tail.length := by
        rw [buildClumpedAux_length ht]
        simpa using hd
      have hj' : j < rest.length := by simpa using hd
      exact ih _ tail ht j hj hj'

theorem buildClumpedAux_getLast? {flws : List (Nat × FieldWorker)}
    {m : List (Int × List DeliveryUnit)} {first : Int} {L : Nat} :
    ∀ (ds : List Int) (cum : Nat) (cp : List ClumpedPoint),
      buildClumpedAux flws m first L cum ds = Except.ok cp → ds ≠ [] →
      (cp.getLast?).map (fun p => p.cumulative_count)
        = some (cum + (cp.map (fun p => p.daily_count)).sum) := by
  intro ds
  induction ds with
  | nil => intro cum cp _ h; exact absurd rfl h
  | cons d rest ih =>
    intro cum cp h _
    obtain ⟨s, tail, _, ht, rfl⟩ := buildClumpedAux_cons_ok.mp h
    by_cases hr : rest = []
    · subst hr
      cases ht
      simp
    · cases tail with
      | nil =>
        have := buildClumpedAux_length ht
        exact absurd (List.length_eq_zero.mp this.symm) hr
      | cons q qs =>
        have hih := ih _ (q :: qs) ht hr
        rw [List.getLast?_cons_cons, hih]
        simp only [List.map_cons, List.sum_cons, Option.some.injEq]
        omega

theorem buildClumpedAux_head_cum {flws : List (Nat × FieldWorker)}
    {m : List (Int × List DeliveryUnit)} {first : Int} {L : Nat} :
    ∀ {ds : List Int} {cum : Nat} {cp : List ClumpedPoint} {p : ClumpedPoint},
      buildClumpedAux flws m first L cum ds = Except.ok cp →
      cp.head? = some p → cum ≤ p.cumulative_count := by
  intro ds
  cases ds with
  | nil =>
    intro cum cp p h hp
    cases h
    simp at hp
  | cons d rest =>
    intro cum cp p h hp
    obtain ⟨s, tail, _, _, rfl⟩ := buildClumpedAux_cons_ok.mp h
    rw [List.head?_cons] at hp
    cases hp
    exact Nat.le_add_right _ _

theorem buildClumpedAux_chain {flws : List (Nat × FieldWorker)}
    {m : List (Int × List DeliveryUnit)} {first : Int} {L : Nat} :
    ∀ (ds : List Int) (cum : Nat) (cp : List ClumpedPoint),
      buildClumpedAux flws m first L cum ds = Except.ok cp →
      List.Chain' (fun a b => a.cumulative_count ≤ b.cumulative_count) cp := by
  intro ds
  induction ds with
  | nil =>
    intro cum cp h
    cases h
    simp
  | cons d rest ih =>
    intro cum cp h
    obtain ⟨s, tail, _, ht, rfl⟩ := buildClumpedAux_cons_ok.mp h
    refine List.chain'_cons'.mpr ⟨?_, ih _ tail ht⟩
    intro q hq
    have := buildClumpedAux_head_cum ht hq
    exact this

/-- Any clumped series produced from cumulative count 0 satisfies the spec's
§8 cumulative-sum property. -/
theorem buildClumpedAux_summed {flws : List (Nat × FieldWorker)}
    {m : List (Int × List DeliveryUnit)} {first : Int} {L : Nat}
    {ds : List Int} {cp : List ClumpedPoint}
    (h : buildClumpedAux flws m first L 0 ds = Except.ok cp) :
    clumpedSummed cp := by
  constructor
  · intro hne
    have hds : ds ≠ [] := by
      intro hnil
      subst hnil
      cases h
      exact hne rfl
    have := buildClumpedAux_getLast? ds 0 cp h hds
    rw [List.getLast?_eq_getLast _ hne] at this
    simpa using this
  · exact buildClumpedAux_chain ds 0 cp h

/-- One project step keeps the cumulative dictionaries identical to the
daily ones: the source stores the same series object under both keys. -/
theorem processProject_dup {r : ℚ} {L : Nat} {pd : ProgressData} {cd : CoverageData}
    {pd' : ProgressData} (h : processProject r L pd cd = Except.ok pd')
    (hs : pd.cumulative_service_delivery = pd.service_delivery_progress)
    (hd : pd.cumulative_du_completion = pd.du_completion_progress) :
    pd'.cumulative_service_delivery = pd'.service_delivery_progress ∧
    pd'.cumulative_du_completion = pd'.du_completion_progress := by
  unfold processProject at h
  cases hfold : cd.delivery_units.foldlM (processDU r) ([], []) with
  | error e =>
    rw [hfold] at h
    exact Except.noConfusion h
  | ok pair =>
    obtain ⟨duMap, clMap⟩ := pair
    rw [hfold] at h
    dsimp only at h
    by_cases hcm : clMap = []
    · rw [if_pos hcm] at h
      cases h
      by_cases hdm : duMap = [] <;>
        by_cases hsm : bucketServiceDeliveries cd.service_points = [] <;>
          simp [hdm, hsm, hs, hd]
    · rw [if_neg hcm] at h
      cases hbca : buildClumpedAux cd.flws clMap (keysMin duMap) L 0
          (denseDates (keysMin duMap) (keysMax clMap)) with
      | error e =>
        rw [hbca] at h
        exact Except.noConfusion h
      | ok cp =>
        rw [hbca] at h
        cases h
        by_cases hdm : duMap = [] <;>
          by_cases hsm : bucketServiceDeliveries cd.service_points = [] <;>
            simp [hdm, hsm, hs, hd]

theorem mem_upsert_series {name : String} {m : List (Int × Nat)} {first : Int}
    {ds : List Int} {dict : List (String × List ProgressPoint)}
    {e : String × List ProgressPoint}
    (he : e ∈ alistUpsert name (fun _ => buildSeriesAux m first 0 ds) dict) :
    e ∈ dict ∨ builtSeries e.2 := by
  rcases mem_alistUpsert_const he with h' | h'
  · exact Or.inl h'
  · refine Or.inr ?_
    rw [h']
    exact ⟨m, first, ds, rfl⟩

theorem mem_upsert_clumped {name : String} {cp : List ClumpedPoint}
    {dict : List (String × List ClumpedPoint)} {flws : List (Nat × FieldWorker)}
    {m : List (Int × List DeliveryUnit)} {first : Int} {L : Nat} {ds : List Int}
    {e : String × List ClumpedPoint}
    (hbca : buildClumpedAux flws m first L 0 ds = Except.ok cp)
    (he : e ∈ alistUpsert name (fun _ => cp) dict) :
    e ∈ dict ∨ builtClumped e.2 := by
  rcases mem_alistUpsert_const he with h' | h'
  · exact Or.inl h'
  · refine Or.inr ?_
    rw [h']
    exact ⟨flws, m, first, L, ds, hbca⟩

/-- Every series present after one project step was either already present or
was built by the corresponding series builder starting from cumulative 0. -/
theorem processProject_mem {r : ℚ} {L : Nat} {pd : ProgressData} {cd : CoverageData}
    {pd' : ProgressData} (h : processProject r L pd cd = Except.ok pd') :
    (∀ e ∈ pd'.service_delivery_progress,
      e ∈ pd.service_delivery_progress ∨ builtSeries e.2) ∧
    (∀ e ∈ pd'.cumulative_service_delivery,
      e ∈ pd.cumulative_service_delivery ∨ builtSeries e.2) ∧
    (∀ e ∈ pd'.du_completion_progress,
      e ∈ pd.du_completion_progress ∨ builtSeries e.2) ∧
    (∀ e ∈ pd'.cumulative_du_completion,
      e ∈ pd.cumulative_du_completion ∨ builtSeries e.2) ∧
    (∀ e ∈ pd'.clumped_dus_progress,
      e ∈ pd.clumped_dus_progress ∨ builtClumped e.2) := by
  unfold processProject at h
  cases hfold : cd.delivery_units.foldlM (processDU r) ([], []) with
  | error e =>
    rw [hfold] at h
    exact Except.noConfusion h
  | ok pair =>
    obtain ⟨duMap, clMap⟩ := pair
    rw [hfold] at h
    dsimp only at h
    by_cases hsm : bucketServiceDeliveries cd.service_points = []
    · rw [if_pos hsm] at h
      by_cases hdm : duMap = []
      · rw [if_pos hdm] at h
        by_cases hcm : clMap = []
        · rw [if_pos hcm] at h
          cases h
          exact ⟨fun e he => Or.inl he, fun e he => Or.inl he, fun e he => Or.inl he,
            fun e he => Or.inl he, fun e he => Or.inl he⟩
        · rw [if_neg hcm] at h
          cases hbca : buildClumpedAux cd.flws clMap (keysMin duMap) L 0
              (denseDates (keysMin duMap) (keysMax clMap)) with
          | error e => rw [hbca] at h; exact Except.noConfusion h
          | ok cp =>
            rw [hbca] at h
            cases h
            exact ⟨fun e he => Or.inl he, fun e he => Or.inl he, fun e he => Or.inl he,
              fun e he => Or.inl he, fun e he => mem_upsert_clumped hbca he⟩
      · rw [if_neg hdm] at h
        by_cases hcm : clMap = []
        · rw [if_pos hcm] at h
          cases h
          exact ⟨fun e he => Or.inl he, fun e he => Or.inl he,
            fun e he => mem_upsert_series he, fun e he => mem_upsert_series he,
            fun e he => Or.inl he⟩
        · rw [if_neg hcm] at h
          cases hbca : buildClumpedAux cd.flws clMap (keysMin duMap) L 0
              (denseDates (keysMin duMap) (keysMax clMap)) with
          | error e => rw [hbca] at h; exact Except.noConfusion h
          | ok cp =>
            rw [hbca] at h
            cases h
            exact ⟨fun e he => Or.inl he, fun e he => Or.inl he,
              fun e he => mem_upsert_series he, fun e he => mem_upsert_series he,
              fun e he => mem_upsert_clumped hbca he⟩
    · rw [if_neg hsm] at h
      by_cases hdm : duMap = []
      · rw [if_pos hdm] at h
        by_cases hcm : clMap = []
        · rw [if_pos hcm] at h
          cases h
          exact ⟨fun e he => mem_upsert_series he, fun e he => mem_upsert_series he,
            fun e he => Or.inl he, fun e he => Or.inl he, fun e he => Or.inl he⟩
        · rw [if_neg hcm] at h
          cases hbca : buildClumpedAux cd.flws clMap (keysMin duMap) L 0
              (denseDates (keysMin duMap) (keysMax clMap)) with
          | error e => rw [hbca] at h; exact Except.noConfusion h
          | ok cp =>
            rw [hbca] at h
            cases h
            exact ⟨fun e he => mem_upsert_series he, fun e he => mem_upsert_series he,
              fun e he => Or.inl he, fun e he => Or.inl he,
              fun e he => mem_upsert_clumped hbca he⟩
      · rw [if_neg hdm] at h
        by_cases hcm : clMap = []
        · rw [if_pos hcm] at h
          cases h
          exact ⟨fun e he => mem_upsert_series he, fun e he => mem_upsert_series he,
            fun e he => mem_upsert_series he, fun e he => mem_upsert_series he,
            fun e he => Or.inl he⟩
        · rw [if_neg hcm] at h
          cases hbca : buildClumpedAux cd.flws clMap (keysMin duMap) L 0
              (denseDates (keysMin duMap) (keysMax clMap)) with
          | error e => rw [hbca] at h; exact Except.noConfusion h
          | ok cp =>
            rw [hbca] at h
            cases h
            exact ⟨fun e he => mem_upsert_series he, fun e he => mem_upsert_series he,
              fun e he => mem_upsert_series he, fun e he => mem_upsert_series he,
              fun e he => mem_upsert_clumped hbca he⟩

/-- What one project step stores under the project's opportunity name: the
service and completion series walk their own bucket map from its first to its
last key; the clumped series walks from the completion map's first key to the
clumped map's last key. -/
theorem processProject_lookup {r : ℚ} {L : Nat} {pd : ProgressData} {cd : CoverageData}
    {pd' : ProgressData} {duMap : List (Int × Nat)} {clMap : List (Int × List DeliveryUnit)}
    (hfold : cd.delivery_units.foldlM (processDU r) ([], []) = Except.ok (duMap, clMap))
    (h : processProject r L pd cd = Except.ok pd') :
    (bucketServiceDeliveries cd.service_points ≠ [] →
      alistGet cd.opportunity_name pd'.service_delivery_progress
        = some (buildSeriesAux (bucketServiceDeliveries cd.service_points)
            (keysMin (bucketServiceDeliveries cd.service_points)) 0
            (denseDates (keysMin (bucketServiceDeliveries cd.service_points))
              (keysMax (bucketServiceDeliveries cd.service_points))))) ∧
    (duMap ≠ [] →
      alistGet cd.opportunity_name pd'.du_completion_progress
        = some (buildSeriesAux duMap (keysMin duMap) 0
            (denseDates (keysMin duMap) (keysMax duMap)))) ∧
    (clMap ≠ [] → ∃ cp,
      buildClumpedAux cd.flws clMap (keysMin duMap) L 0
        (denseDates (keysMin duMap) (keysMax clMap)) = Except.ok cp ∧
      alistGet cd.opportunity_name pd'.clumped_dus_progress = some cp) := by
  unfold processProject at h
  rw [hfold] at h
  dsimp only at h
  by_cases hsm : bucketServiceDeliveries cd.service_points = []
  · rw [if_pos hsm] at h
    by_cases hdm : duMap = []
    · rw [if_pos hdm] at h
      by_cases hcm : clMap = []
      · rw [if_pos hcm] at h
        cases h
        exact ⟨fun hc => absurd hsm hc, fun hc => absurd hdm hc, fun hc => absurd hcm hc⟩
      · rw [if_neg hcm] at h
        cases hbca : buildClumpedAux cd.flws clMap (keysMin duMap) L 0
            (denseDates (keysMin duMap) (keysMax clMap)) with
        | error e => rw [hbca] at h; exact Except.noConfusion h
        | ok cp =>
          rw [hbca] at h
          cases h
          exact ⟨fun hc => absurd hsm hc, fun hc => absurd hdm hc,
            fun _ => ⟨cp, rfl, alistGet_upsert_self _ _ _⟩⟩
    · rw [if_neg hdm] at h
      by_cases hcm : clMap = []
      · rw [if_pos hcm] at h
        cases h
        exact ⟨fun hc => absurd hsm hc, fun _ => alistGet_upsert_self _ _ _,
          fun hc => absurd hcm hc⟩
      · rw [if_neg hcm] at h
        cases hbca : buildClumpedAux cd.flws clMap (keysMin duMap) L 0
            (denseDates (keysMin duMap) (keysMax clMap)) with
        | error e => rw [hbca] at h; exact Except.noConfusion h
        | ok cp =>
          rw [hbca] at h
          cases h
          exact ⟨fun hc => absurd hsm hc, fun _ => alistGet_upsert_self _ _ _,
            fun _ => ⟨cp, rfl, alistGet_upsert_self _ _ _⟩⟩
  · rw [if_neg hsm] at h
    by_cases hdm : duMap = []
    · rw [if_pos hdm] at h
      by_cases hcm : clMap = []
      · rw [if_pos hcm] at h
        cases h
        exact ⟨fun _ => alistGet_upsert_self _ _ _, fun hc => absurd hdm hc,
          fun hc => absurd hcm hc⟩
      · rw [if_neg hcm] at h
        cases hbca : buildClumpedAux cd.flws clMap (keysMin duMap) L 0
            (denseDates (keysMin duMap) (keysMax clMap)) with
        | error e => rw [hbca] at h; exact Except.noConfusion h
        | ok cp =>
          rw [hbca] at h
          cases h
          exact ⟨fun _ => alistGet_upsert_self _ _ _, fun hc => absurd hdm hc,
            fun _ => ⟨cp, rfl, alistGet_upsert_self _ _ _⟩⟩
    · rw [if_neg hdm] at h
      by_cases hcm : clMap = []
      · rw [if_pos hcm] at h
        cases h
        exact ⟨fun _ => alistGet_upsert_self _ _ _, fun _ => alistGet_upsert_self _ _ _,
          fun hc => absurd hcm hc⟩
      · rw [if_neg hcm] at h
        cases hbca : buildClumpedAux cd.flws clMap (keysMin duMap) L 0
            (denseDates (keysMin duMap) (keysMax clMap)) with
        | error e => rw [hbca] at h; exact Except.noConfusion h
        | ok cp =>
          rw [hbca] at h
          cases h
          exact ⟨fun _ => alistGet_upsert_self _ _ _, fun _ => alistGet_upsert_self _ _ _,
            fun _ => ⟨cp, rfl, alistGet_upsert_self _ _ _⟩⟩

/-- A series built over `denseDates anchor (keysMax m)` has the dense
anchored-walk shape relative to `anchor`. -/
theorem denseFrom_buildSeriesAux (anchor : Int) (m : List (Int × Nat)) :
    denseFrom anchor m
      (buildSeriesAux m anchor 0 (denseDates anchor (keysMax m))) := by
  constructor
  · rw [buildSeriesAux_length, denseDates_length]
  · intro i
    have hd : (i : Nat) < (denseDates anchor (keysMax m)).length := by
      have := buildSeriesAux_length m anchor (denseDates anchor (keysMax m)) 0
      rw [← this]
      exact i.2
    obtain ⟨h1, h2⟩ := buildSeriesAux_get m anchor
      (denseDates anchor (keysMax m)) 0 (i : Nat) i.2 hd
    rw [denseDates_get] at h1 h2
    refine ⟨?_, h2⟩
    rw [h1]
    ring

/-- A clumped series accepted over `denseDates anchor (keysMax m)` has the
dense anchored-walk shape relative to `anchor`. -/
theorem clumpedDenseFrom_buildClumpedAux {flws : List (Nat × FieldWorker)}
    {m : List (Int × List DeliveryUnit)} {anchor : Int} {L : Nat}
    {cp : List ClumpedPoint}
    (h : buildClumpedAux flws m anchor L 0 (denseDates anchor (keysMax m))
      = Except.ok cp) :
    clumpedDenseFrom anchor m cp := by
  constructor
  · rw [buildClumpedAux_length h, denseDates_length]
  · intro i
    have hd : (i : Nat) < (denseDates anchor (keysMax m)).length := by
      rw [← buildClumpedAux_length h]
      exact i.2
    obtain ⟨h1, h2, -⟩ := buildClumpedAux_get (denseDates anchor (keysMax m))
      0 cp h (i : Nat) i.2 hd
    rw [denseDates_get] at h1 h2
    refine ⟨?_, h2⟩
    rw [h1]
    ring

theorem alistUpsert_not_mem {κ α : Type} [DecidableEq κ] {k : κ} (f : Option α → α)
    {m : List (κ × α)} (hk : k ∉ m.map Prod.fst) :
    alistUpsert k f m = m ++ [(k, f none)] := by
  induction m with
  | nil => rfl
  | cons p rest ih =>
    simp only [List.map_cons, List.mem_cons, not_or] at hk
    simp only [alistUpsert]
    rw [if_neg (fun h => hk.1 h.symm)]
    rw [ih hk.2]
    simp

/-- Folding the per-project upserts over distinct project keys produces the
projects in input order. -/
theorem buildProjects_eq :
    ∀ (objs : List (String × CoverageData)) (acc : List (String × ProjectStats)),
      (objs.map Prod.fst).Nodup →
      (∀ k ∈ objs.map Prod.fst, k ∉ acc.map Prod.fst) →
      objs.foldl (fun m p => alistUpsert p.1 (fun _ => projectStats p.1 p.2) m) acc
        = acc ++ objs.map (fun p => (p.1, projectStats p.1 p.2)) := by
  intro objs
  induction objs with
  | nil => intro acc _ _; simp
  | cons p rest ih =>
    intro acc hnd hdisj
    simp only [List.map_cons, List.nodup_cons] at hnd
    simp only [List.foldl_cons]
    rw [alistUpsert_not_mem _ (hdisj p.1 (by simp))]
    rw [ih (acc ++ [(p.1, projectStats p.1 p.2)]) hnd.2 ?_]
    · simp
    · intro k hkmem
      simp only [List.map_append, List.mem_append, List.map_cons, List.map_nil,
        List.mem_singleton, not_or]
      refine ⟨hdisj k (by simp [hkmem]), ?_⟩
      intro hkp
      exact hnd.1 (hkp ▸ hkmem)

theorem mem_addUnique {s : List Nat} {y x : Nat} :
    y ∈ addUnique s x ↔ y ∈ s ∨ y = x := by
  by_cases h : x ∈ s
  · simp only [addUnique, if_pos h]
    exact ⟨Or.inl, fun hy => hy.elim id (fun he => he ▸ h)⟩
  · simp [addUnique, if_neg h]

theorem addUnique_nodup {s : List Nat} {x : Nat} (h : s.Nodup) :
    (addUnique s x).Nodup := by
  by_cases hx : x ∈ s
  · simpa [addUnique, if_pos hx] using h
  · simp [addUnique, if_neg hx, List.nodup_append, h, hx]

theorem lookupFlw_none {flws : List (Nat × FieldWorker)} {k : Nat}
    (h : alistGet k flws = none) : lookupFlw flws k = Except.error "KeyError" := by
  simp [lookupFlw, h]

theorem lookupFlw_some {flws : List (Nat × FieldWorker)} {k : Nat} {fw : FieldWorker}
    (h : alistGet k flws = some fw) : lookupFlw flws k = Except.ok fw := by
  simp [lookupFlw, h]

theorem mem_windowDays {current : Int} {L : Nat} {d : Int} :
    d ∈ windowDays current L ↔ current - ((L : Int) - 1) ≤ d ∧ d ≤ current := by
  simp only [windowDays, List.mem_map, List.mem_range]
  constructor
  · rintro ⟨i, hi, rfl⟩
    omega
  · intro h
    refine ⟨(d - (current - ((L : Int) - 1))).toNat, ?_, ?_⟩ <;> omega

theorem collectFlwsAtDay_ok {flws : List (Nat × FieldWorker)} :
    ∀ (dus : List DeliveryUnit) (s s' : List Nat),
      collectFlwsAtDay flws dus s = Except.ok s' → s.Nodup →
      s'.Nodup ∧ ∀ x, x ∈ s' ↔ (x ∈ s ∨ ∃ du ∈ dus, ∃ fw,
        alistGet du.flw_commcare_id flws = some fw ∧ fw.id = x) := by
  intro dus
  induction dus with
  | nil =>
    intro s s' h hnd
    rw [show collectFlwsAtDay flws [] s = Except.ok s from rfl] at h
    cases h
    exact ⟨hnd, by simp⟩
  | cons du rest ih =>
    intro s s' h hnd
    cases hlk : alistGet du.flw_commcare_id flws with
    | none =>
      simp only [collectFlwsAtDay, List.foldlM_cons, lookupFlw_none hlk,
        Bind.bind, Except.bind] at h
      exact Except.noConfusion h
    | some fw =>
      simp only [collectFlwsAtDay, List.foldlM_cons, lookupFlw_some hlk,
        Bind.bind, Except.bind, pure, Except.pure] at h
      obtain ⟨hnd', hmem⟩ := ih (addUnique s fw.id) s' h (addUnique_nodup hnd)
      refine ⟨hnd', fun x => ?_⟩
      rw [hmem x, mem_addUnique]
      constructor
      · rintro ((hx | hx) | ⟨du', hdu', fw', hfw', hid⟩)
        · exact Or.inl hx
        · exact Or.inr ⟨du, List.mem_cons_self _ _, fw, hlk, hx.symm⟩
        · exact Or.inr ⟨du', List.mem_cons_of_mem _ hdu', fw', hfw', hid⟩
      · rintro (hx | ⟨du', hdu', fw', hfw', hid⟩)
        · exact Or.inl (Or.inl hx)
        · rcases List.mem_cons.mp hdu' with heq | hdu'
          · subst heq
            rw [hlk] at hfw'
            cases hfw'
            exact Or.inl (Or.inr hid.symm)
          · exact Or.inr ⟨du', hdu', fw', hfw', hid⟩

theorem collectFlws_scan {flws : List (Nat × FieldWorker)}
    {clMap : List (Int × List DeliveryUnit)} :
    ∀ (days : List Int) (s s' : List Nat), s.Nodup →
      days.foldlM (fun s d =>
        match alistGet d clMap with
        | some dus => collectFlwsAtDay flws dus s
        | none => pure s) s = Except.ok s' →
      s'.Nodup ∧ ∀ x, x ∈ s' ↔ (x ∈ s ∨ ∃ d ∈ days, ∃ dus,
        alistGet d clMap = some dus ∧ ∃ du ∈ dus, ∃ fw,
          alistGet du.flw_commcare_id flws = some fw ∧ fw.id = x) := by
  intro days
  induction days with
  | nil =>
    intro s s' hnd h
    rw [List.foldlM_nil] at h
    cases h
    exact ⟨hnd, by simp⟩
  | cons d rest ih =>
    intro s s' hnd h
    rw [List.foldlM_cons] at h
    cases hd : alistGet d clMap with
    | none =>
      simp only [hd, Bind.bind, Except.bind, pure, Except.pure] at h
      obtain ⟨hnd', hmem⟩ := ih s s' hnd h
      refine ⟨hnd', fun x => ?_⟩
      rw [hmem x]
      constructor
      · rintro (hx | ⟨d', hd', hrest⟩)
        · exact Or.inl hx
        · exact Or.inr ⟨d', List.mem_cons_of_mem _ hd', hrest⟩
      · rintro (hx | ⟨d', hd', dus, hdus, hrest⟩)
        · exact Or.inl hx
        · rcases List.mem_cons.mp hd' with heq | hd'
          · subst heq
            rw [hd] at hdus
            exact Option.noConfusion hdus
          · exact Or.inr ⟨d', hd', dus, hdus, hrest⟩
    | some dus =>
      simp only [hd] at h
      cases hday : collectFlwsAtDay flws dus s with
      | error e =>
        rw [hday] at h
        simp only [Bind.bind, Except.bind] at h
        exact Except.noConfusion h
      | ok s1 =>
        rw [hday] at h
        simp only [Bind.bind, Except.bind] at h
        obtain ⟨hnd1, hmem1⟩ := collectFlwsAtDay_ok dus s s1 hday hnd
        obtain ⟨hnd', hmem⟩ := ih s1 s' hnd1 h
        refine ⟨hnd', fun x => ?_⟩
        rw [hmem x, hmem1 x]
        constructor
        · rintro ((hx | ⟨du, hdu, fw, hfw, hid⟩) | ⟨d', hd', hrest⟩)
          · exact Or.inl hx
          · exact Or.inr ⟨d, List.mem_cons_self _ _, dus, hd, du, hdu, fw, hfw, hid⟩
          · exact Or.inr ⟨d', List.mem_cons_of_mem _ hd', hrest⟩
        · rintro (hx | ⟨d', hd', dus', hdus', du, hdu, fw, hfw, hid⟩)
          · exact Or.inl (Or.inl hx)
          · rcases List.mem_cons.mp hd' with heq | hd'
            · subst heq
              rw [hd] at hdus'
              cases hdus'
              exact Or.inl (Or.inr ⟨du, hdu, fw, hfw, hid⟩)
            · exact Or.inr ⟨d', hd', dus', hdus', du, hdu, fw, hfw, hid⟩

/-- When the lookback scan succeeds, the size of the set it builds equals the
spec's distinct-worker count over the same window. -/
theorem collectFlws_spec {flws : List (Nat × FieldWorker)}
    {clMap : List (Int × List DeliveryUnit)} {current : Int} {L : Nat}
    {s : List Nat} (hk : (clMap.map Prod.fst).Nodup)
    (h : collectFlws flws clMap current L = Except.ok s) :
    s.length = specUniqueWorkerCount flws clMap current L := by
  obtain ⟨hnd, hmem⟩ := collectFlws_scan (windowDays current L) [] s List.nodup_nil h
  unfold specUniqueWorkerCount
  rw [← List.toFinset_card_of_nodup hnd]
  congr 1
  ext x
  simp only [List.mem_toFinset, hmem x, List.not_mem_nil, false_or,
    List.mem_filterMap, List.mem_bind, List.mem_filter,
    Bool.and_eq_true, decide_eq_true_eq, Option.map_eq_some']
  constructor
  · rintro ⟨d, hd, dus, hdus, du, hdu, fw, hfw, hid⟩
    have hb := mem_windowDays.mp hd
    exact ⟨du, ⟨(d, dus), ⟨mem_of_alistGet_eq_some hdus, hb.1, hb.2⟩, hdu⟩,
      fw, hfw, hid⟩
  · rintro ⟨du, ⟨⟨d, dus⟩, ⟨hmem', hb1, hb2⟩, hdu⟩, fw, hfw, hid⟩
    exact ⟨d, mem_windowDays.mpr ⟨hb1, hb2⟩, dus,
      alistGet_eq_some_of_mem_nodup hk hmem', du, hdu, fw, hfw, hid⟩

/-! ### Claims -/

/-- Claim C1, counterexample: a completed delivery unit with a valid
completion date and building count 0 makes the clumping-ratio division raise
`ZeroDivisionError`; the error propagates out of the Progress Series Builder
instead of being guarded to a fallback. -/
theorem coverage_C1_counterexample :
    processDU 10 ([], []) duZeroBuildings = Except.error "ZeroDivisionError" ∧
    generate_progress_data [cdZeroBuildings] 10 10 = Except.error "ZeroDivisionError" :=
  ⟨rfl, rfl⟩

/-- Claim C1 (amended): division by zero in the clumping-ratio calculation is
not guarded — for every completed delivery unit with a valid completion
timestamp whose building count is 0, computing the clumping value raises
`ZeroDivisionError`, and the unit is never classified. -/
theorem coverage_C1_zero_buildings_raises (clumping_ratio : ℚ)
    (acc : List (Int × Nat) × List (Int × List DeliveryUnit))
    (du : DeliveryUnit) (hst : du.status = "completed")
    (hdate : ∃ d, du.computed_du_completion_date = CompletionStamp.valid d)
    (hb : du.buildings = 0) :
    processDU clumping_ratio acc du = Except.error "ZeroDivisionError" := by
  obtain ⟨d, hd⟩ := hdate
  simp [processDU, hst, hd, hb]

/-- Witness for the amended C1 at a concrete unit. -/
theorem coverage_C1_witness :
    duZeroBuildings.status = "completed" ∧
    (∃ d, duZeroBuildings.computed_du_completion_date = CompletionStamp.valid d) ∧
    duZeroBuildings.buildings = 0 ∧
    processDU 10 ([], []) duZeroBuildings = Except.error "ZeroDivisionError" :=
  ⟨rfl, ⟨5, rfl⟩, rfl,
    coverage_C1_zero_buildings_raises 10 ([], []) duZeroBuildings rfl ⟨5, rfl⟩ rfl⟩

/-- Claim C8: with clumping ratio 10.0, a qualifying completed unit with 11
service points over 1 building is classified clumped (entered into the
clumped bucket), while one with 10 service points over 1 building is not —
the comparison is strict. -/
theorem coverage_C8_strict_threshold :
    processDU 10 ([], []) duEleven = Except.ok ([(5, 1)], [(5, [duEleven])]) ∧
    processDU 10 ([], []) duTen = Except.ok ([(5, 1)], []) := by
  constructor <;> with_unfolding_all decide

/-- Claim C9: an empty input map produces no report artifact: the generator
returns Python `None` (here `Except.ok none`) rather than raising or writing
a report. -/
theorem coverage_C9_empty_input (clumping_ratio : ℚ) (lookback_days : Nat) :
    create_opportunity_comparison_report [] clumping_ratio lookback_days =
      Except.ok none := rfl

/-- Claim C7: both percentage fields are zero-guarded — the ratio times 100
when the denominator is positive, and exactly 0 when the project has zero
delivery units (resp. zero field workers); no division is ever attempted on a
zero denominator. -/
theorem coverage_C7_zero_guarded_percentages (project_key : String) (cd : CoverageData) :
    ((projectStats project_key cd).coverage_percentage =
      if (projectStats project_key cd).delivery_units_count = 0 then 0
      else ((projectStats project_key cd).completed_dus_count : ℚ)
        / ((projectStats project_key cd).delivery_units_count : ℚ) * 100) ∧
    ((projectStats project_key cd).pct_active_flw_last7days =
      if (projectStats project_key cd).total_flws = 0 then 0
      else ((projectStats project_key cd).active_flw_last7days : ℚ)
        / ((projectStats project_key cd).total_flws : ℚ) * 100) := by
  have h1 : (projectStats project_key cd).coverage_percentage
      = if (projectStats project_key cd).delivery_units_count > 0
        then ((projectStats project_key cd).completed_dus_count : ℚ)
          / ((projectStats project_key cd).delivery_units_count : ℚ) * 100
        else 0 := rfl
  have h2 : (projectStats project_key cd).pct_active_flw_last7days
      = if (projectStats project_key cd).total_flws > 0
        then ((projectStats project_key cd).active_flw_last7days : ℚ)
          / ((projectStats project_key cd).total_flws : ℚ) * 100
        else 0 := rfl
  constructor
  · rw [h1]
    rcases Nat.eq_zero_or_pos (projectStats project_key cd).delivery_units_count with h | h
    · simp [h]
    · rw [if_pos h, if_neg (Nat.pos_iff_ne_zero.mp h)]
  · rw [h2]
    rcases Nat.eq_zero_or_pos (projectStats project_key cd).total_flws with h | h
    · simp [h]
    · rw [if_pos h, if_neg (Nat.pos_iff_ne_zero.mp h)]

/-- Claim C3: a delivery unit whose status is "completed" but whose
completion timestamp is not a datetime or is NaT contributes to no progress
series and raises nothing: removing it from the project's delivery units
leaves the Progress Series Builder's output for that project unchanged. -/
theorem coverage_C3_invalid_stamp_excluded (clumping_ratio : ℚ) (lookback_days : Nat)
    (pd : ProgressData) (cd : CoverageData) (du : DeliveryUnit)
    (l1 l2 : List DeliveryUnit)
    (hdu : cd.delivery_units = l1 ++ du :: l2)
    (hst : du.status = "completed")
    (hdate : du.computed_du_completion_date = CompletionStamp.notDatetime ∨
      du.computed_du_completion_date = CompletionStamp.notATime) :
    processProject clumping_ratio lookback_days pd cd =
      processProject clumping_ratio lookback_days pd
        { cd with delivery_units := l1 ++ l2 } := by
  have hfold : cd.delivery_units.foldlM (processDU clumping_ratio)
        (([], []) : List (Int × Nat) × List (Int × List DeliveryUnit))
      = (l1 ++ l2).foldlM (processDU clumping_ratio) ([], []) := by
    rw [hdu, List.foldlM_append, List.foldlM_append]
    cases h : l1.foldlM (processDU clumping_ratio) ([], []) with
    | error e => rfl
    | ok b =>
      simp only [Bind.bind, Except.bind, List.foldlM_cons,
        processDU_skip clumping_ratio b du hst hdate]
  unfold processProject
  rw [hfold]

/-- Witness for C3: inserting an invalidly stamped completed unit into a
concrete project changes nothing. -/
theorem coverage_C3_witness :
    cdAnchorPlus.delivery_units = [duEarly] ++ duNoStamp :: [duLate] ∧
    duNoStamp.status = "completed" ∧
    (duNoStamp.computed_du_completion_date = CompletionStamp.notDatetime ∨
      duNoStamp.computed_du_completion_date = CompletionStamp.notATime) ∧
    processProject 10 10 emptyProgressData cdAnchorPlus =
      processProject 10 10 emptyProgressData
        { cdAnchorPlus with delivery_units := [duEarly] ++ [duLate] } :=
  ⟨rfl, rfl, Or.inl rfl,
    coverage_C3_invalid_stamp_excluded 10 10 emptyProgressData cdAnchorPlus duNoStamp
      [duEarly] [duLate] rfl rfl (Or.inl rfl)⟩

/-- Claim C2, counterexample: for the project `cdAnchor` (first completion on
day 0 not clumped, only clumped completion on day 2), the emitted clumped
series is not anchored at the clumped series' own first bucketed date: its
only clumped bucket is day 2 yet the series has three points with offsets
0, 1, 2 measured from the completion series' first date. -/
theorem coverage_C2_counterexample :
    processProject 10 10 emptyProgressData cdAnchor = Except.ok pdAnchor ∧
    cdAnchor.delivery_units.foldlM (processDU 10) ([], [])
      = Except.ok (duMapAnchor, clMapAnchor) ∧
    alistGet "P2" pdAnchor.clumped_dus_progress = some cpAnchor ∧
    keysMin duMapAnchor = 0 ∧ keysMin clMapAnchor = 2 ∧
    keysMax clMapAnchor = 2 ∧ cpAnchor.length = 3 ∧
    ¬ clumpedDenseFrom (keysMin clMapAnchor) clMapAnchor cpAnchor := by
  refine ⟨?_, ?_, ?_, ?_, ?_, ?_, ?_, ?_⟩ <;> with_unfolding_all decide

/-- Claim C2 (amended): the service-delivery and DU-completion series are each
anchored at their own first bucketed date, walking every calendar day to their
own last bucketed date inclusive with day offset = (date − own first date);
the clumped series instead is anchored at the DU-completion series' first
bucketed date and walks to the clumped series' last bucketed date, its
offsets measured from the completion series' first date. -/
theorem coverage_C2_series_anchoring (clumping_ratio : ℚ) (lookback_days : Nat)
    (pd : ProgressData) (cd : CoverageData) (pd' : ProgressData)
    (duMap : List (Int × Nat)) (clMap : List (Int × List DeliveryUnit))
    (hfold : cd.delivery_units.foldlM (processDU clumping_ratio) ([], [])
      = Except.ok (duMap, clMap))
    (h : processProject clumping_ratio lookback_days pd cd = Except.ok pd') :
    (bucketServiceDeliveries cd.service_points ≠ [] →
      ∃ s, alistGet cd.opportunity_name pd'.service_delivery_progress = some s ∧
        denseFrom (keysMin (bucketServiceDeliveries cd.service_points))
          (bucketServiceDeliveries cd.service_points) s ∧
        ∃ c, (keysMin (bucketServiceDeliveries cd.service_points), c)
          ∈ bucketServiceDeliveries cd.service_points) ∧
    (duMap ≠ [] →
      ∃ s, alistGet cd.opportunity_name pd'.du_completion_progress = some s ∧
        denseFrom (keysMin duMap) duMap s ∧ ∃ c, (keysMin duMap, c) ∈ duMap) ∧
    (clMap ≠ [] →
      ∃ s, alistGet cd.opportunity_name pd'.clumped_dus_progress = some s ∧
        clumpedDenseFrom (keysMin duMap) clMap s) := by
  obtain ⟨h1, h2, h3⟩ := processProject_lookup hfold h
  refine ⟨fun hc => ?_, fun hc => ?_, fun hc => ?_⟩
  · exact ⟨_, h1 hc, denseFrom_buildSeriesAux _ _, keysMin_mem hc⟩
  · exact ⟨_, h2 hc, denseFrom_buildSeriesAux _ _, keysMin_mem hc⟩
  · obtain ⟨cp, hbca, hget⟩ := h3 hc
    exact ⟨cp, hget, clumpedDenseFrom_buildClumpedAux hbca⟩

/-- Witness for the amended C2 at the concrete project `cdSmall`. -/
theorem coverage_C2_witness :
    cdSmall.delivery_units.foldlM (processDU 10) ([], [])
      = Except.ok (duMapSmall, clMapSmall) ∧
    processProject 10 3 emptyProgressData cdSmall = Except.ok pdSmall ∧
    ((bucketServiceDeliveries cdSmall.service_points ≠ [] →
      ∃ s, alistGet cdSmall.opportunity_name pdSmall.service_delivery_progress = some s ∧
        denseFrom (keysMin (bucketServiceDeliveries cdSmall.service_points))
          (bucketServiceDeliveries cdSmall.service_points) s ∧
        ∃ c, (keysMin (bucketServiceDeliveries cdSmall.service_points), c)
          ∈ bucketServiceDeliveries cdSmall.service_points) ∧
    (duMapSmall ≠ [] →
      ∃ s, alistGet cdSmall.opportunity_name pdSmall.du_completion_progress = some s ∧
        denseFrom (keysMin duMapSmall) duMapSmall s ∧
        ∃ c, (keysMin duMapSmall, c) ∈ duMapSmall) ∧
    (clMapSmall ≠ [] →
      ∃ s, alistGet cdSmall.opportunity_name pdSmall.clumped_dus_progress = some s ∧
        clumpedDenseFrom (keysMin duMapSmall) clMapSmall s)) :=
  ⟨by with_unfolding_all rfl, by with_unfolding_all rfl,
    coverage_C2_series_anchoring 10 3 emptyProgressData cdSmall pdSmall
      duMapSmall clMapSmall (by with_unfolding_all rfl) (by with_unfolding_all rfl)⟩

/-- Claim C5: in every series the Progress Series Builder emits — service
delivery, DU completion (and their cumulative duplicates), and clumped DU —
the last point's cumulative count equals the sum of all daily counts, and
cumulative counts are monotonically non-decreasing across consecutive
points. -/
theorem coverage_C5_cumulative_sums (objs : List CoverageData) (clumping_ratio : ℚ)
    (lookback_days : Nat) (pd' : ProgressData)
    (h : generate_progress_data objs clumping_ratio lookback_days = Except.ok pd') :
    (∀ e ∈ pd'.service_delivery_progress, seriesSummed e.2) ∧
    (∀ e ∈ pd'.cumulative_service_delivery, seriesSummed e.2) ∧
    (∀ e ∈ pd'.du_completion_progress, seriesSummed e.2) ∧
    (∀ e ∈ pd'.cumulative_du_completion, seriesSummed e.2) ∧
    (∀ e ∈ pd'.clumped_dus_progress, clumpedSummed e.2) := by
  refine foldlM_except_invariant
    (fun pd => (∀ e ∈ pd.service_delivery_progress, seriesSummed e.2) ∧
      (∀ e ∈ pd.cumulative_service_delivery, seriesSummed e.2) ∧
      (∀ e ∈ pd.du_completion_progress, seriesSummed e.2) ∧
      (∀ e ∈ pd.cumulative_du_completion, seriesSummed e.2) ∧
      (∀ e ∈ pd.clumped_dus_progress, clumpedSummed e.2))
    (processProject clumping_ratio lookback_days) ?_ objs emptyProgressData pd'
    ⟨fun e he => absurd he (List.not_mem_nil e), fun e he => absurd he (List.not_mem_nil e),
     fun e he => absurd he (List.not_mem_nil e), fun e he => absurd he (List.not_mem_nil e),
     fun e he => absurd he (List.not_mem_nil e)⟩ h
  intro pd cd pd2 hP hstep
  obtain ⟨m1, m2, m3, m4, m5⟩ := processProject_mem hstep
  refine ⟨fun e he => ?_, fun e he => ?_, fun e he => ?_, fun e he => ?_, fun e he => ?_⟩
  · rcases m1 e he with hin | ⟨m, first, ds, hb⟩
    · exact hP.1 e hin
    · rw [hb]; exact buildSeriesAux_summed m first ds
  · rcases m2 e he with hin | ⟨m, first, ds, hb⟩
    · exact hP.2.1 e hin
    · rw [hb]; exact buildSeriesAux_summed m first ds
  · rcases m3 e he with hin | ⟨m, first, ds, hb⟩
    · exact hP.2.2.1 e hin
    · rw [hb]; exact buildSeriesAux_summed m first ds
  · rcases m4 e he with hin | ⟨m, first, ds, hb⟩
    · exact hP.2.2.2.1 e hin
    · rw [hb]; exact buildSeriesAux_summed m first ds
  · rcases m5 e he with hin | ⟨fl, m, first, L2, ds, hb⟩
    · exact hP.2.2.2.2 e hin
    · exact buildClumpedAux_summed hb

/-- Witness for C5 at the concrete project `cdSmall`. -/
theorem coverage_C5_witness :
    generate_progress_data [cdSmall] 10 3 = Except.ok pdSmall ∧
    ((∀ e ∈ pdSmall.service_delivery_progress, seriesSummed e.2) ∧
     (∀ e ∈ pdSmall.cumulative_service_delivery, seriesSummed e.2) ∧
     (∀ e ∈ pdSmall.du_completion_progress, seriesSummed e.2) ∧
     (∀ e ∈ pdSmall.cumulative_du_completion, seriesSummed e.2) ∧
     (∀ e ∈ pdSmall.clumped_dus_progress, clumpedSummed e.2)) :=
  ⟨by with_unfolding_all rfl,
    coverage_C5_cumulative_sums [cdSmall] 10 3 pdSmall (by with_unfolding_all rfl)⟩

/-- Claim C10: in the Progress Series Builder's output, the series stored
under `cumulative_service_delivery` is exactly the one stored under
`service_delivery_progress`, and `cumulative_du_completion` exactly matches
`du_completion_progress`: the five output maps contain only three distinct
series per project. -/
theorem coverage_C10_duplicate_series (objs : List CoverageData) (clumping_ratio : ℚ)
    (lookback_days : Nat) (pd' : ProgressData)
    (h : generate_progress_data objs clumping_ratio lookback_days = Except.ok pd') :
    pd'.cumulative_service_delivery = pd'.service_delivery_progress ∧
    pd'.cumulative_du_completion = pd'.du_completion_progress :=
  foldlM_except_invariant
    (fun pd => pd.cumulative_service_delivery = pd.service_delivery_progress ∧
      pd.cumulative_du_completion = pd.du_completion_progress)
    (processProject clumping_ratio lookback_days)
    (fun _ _ _ hP hstep => processProject_dup hstep hP.1 hP.2)
    objs emptyProgressData pd' ⟨rfl, rfl⟩ h

/-- Witness for C10 at the concrete project `cdSmall`. -/
theorem coverage_C10_witness :
    generate_progress_data [cdSmall] 10 3 = Except.ok pdSmall ∧
    (pdSmall.cumulative_service_delivery = pdSmall.service_delivery_progress ∧
     pdSmall.cumulative_du_completion = pdSmall.du_completion_progress) :=
  ⟨by with_unfolding_all rfl,
    coverage_C10_duplicate_series [cdSmall] 10 3 pdSmall (by with_unfolding_all rfl)⟩

/-- Claim C6: for every non-empty input map (keys are unique, as in a Python
dict), each cross-project summary count is the sum of the corresponding
per-project counts, and the average coverage is the unweighted arithmetic
mean of the per-project coverage percentages over the number of projects —
0.0 when there are no projects — not a delivery-unit-weighted mean. -/
theorem coverage_C6_cross_project_summary (objs : List (String × CoverageData))
    (hne : objs ≠ []) (hk : (objs.map Prod.fst).Nodup) :
    (generate_comparison_statistics objs).summary_comparisons =
      { total_delivery_units :=
          (objs.map (fun p => (projectStats p.1 p.2).delivery_units_count)).sum
        total_service_points :=
          (objs.map (fun p => (projectStats p.1 p.2).service_points_count)).sum
        total_completed_dus :=
          (objs.map (fun p => (projectStats p.1 p.2).completed_dus_count)).sum
        total_service_areas :=
          (objs.map (fun p => (projectStats p.1 p.2).total_service_areas)).sum
        total_started_sas :=
          (objs.map (fun p => (projectStats p.1 p.2).started_sas_count)).sum
        total_completed_sas :=
          (objs.map (fun p => (projectStats p.1 p.2).completed_sas_count)).sum
        average_coverage :=
          (objs.map (fun p => (projectStats p.1 p.2).coverage_percentage)).sum
            / (objs.length : ℚ)
        total_flws := (objs.map (fun p => (projectStats p.1 p.2).total_flws)).sum } ∧
    (generate_comparison_statistics []).summary_comparisons.average_coverage = 0 := by
  have hproj : objs.foldl (fun m p => alistUpsert p.1 (fun _ => projectStats p.1 p.2) m)
      ([] : List (String × ProjectStats))
      = objs.map (fun p => (p.1, projectStats p.1 p.2)) := by
    simpa using buildProjects_eq objs [] hk (by simp)
  constructor
  · simp only [generate_comparison_statistics]
    rw [hproj]
    simp [List.map_map, Function.comp_def, hne]
  · rfl

/-- Witness for C6 at a concrete two-project input. -/
theorem coverage_C6_witness :
    (objsPair ≠ [] ∧ (objsPair.map Prod.fst).Nodup) ∧
    ((generate_comparison_statistics objsPair).summary_comparisons =
      { total_delivery_units :=
          (objsPair.map (fun p => (projectStats p.1 p.2).delivery_units_count)).sum
        total_service_points :=
          (objsPair.map (fun p => (projectStats p.1 p.2).service_points_count)).sum
        total_completed_dus :=
          (objsPair.map (fun p => (projectStats p.1 p.2).completed_dus_count)).sum
        total_service_areas :=
          (objsPair.map (fun p => (projectStats p.1 p.2).total_service_areas)).sum
        total_started_sas :=
          (objsPair.map (fun p => (projectStats p.1 p.2).started_sas_count)).sum
        total_completed_sas :=
          (objsPair.map (fun p => (projectStats p.1 p.2).completed_sas_count)).sum
        average_coverage :=
          (objsPair.map (fun p => (projectStats p.1 p.2).coverage_percentage)).sum
            / (objsPair.length : ℚ)
        total_flws := (objsPair.map (fun p => (projectStats p.1 p.2).total_flws)).sum } ∧
     (generate_comparison_statistics []).summary_comparisons.average_coverage = 0) :=
  ⟨⟨by decide, by decide⟩,
    coverage_C6_cross_project_summary objsPair (by decide) (by decide)⟩

/-- Claim C4: in a clumped-DU series built over any walk of days, each
point's unique-field-worker count equals the number of distinct worker
identifiers obtained by collecting every clumped delivery unit whose
completion date lies in `[day − (lookback_days − 1), day]` and resolving
each to its field worker through the Field Worker mapping. -/
theorem coverage_C4_unique_worker_window (flws : List (Nat × FieldWorker))
    (clMap : List (Int × List DeliveryUnit))
    (hk : (clMap.map Prod.fst).Nodup) (first : Int) (lookback_days : Nat)
    (ds : List Int) (cp : List ClumpedPoint)
    (h : buildClumpedAux flws clMap first lookback_days 0 ds = Except.ok cp) :
    cp.length = ds.length ∧
    ∀ (i : Nat) (hi : i < cp.length) (hd : i < ds.length),
      (cp.get ⟨i, hi⟩).unique_flws_count_in_lookback
        = specUniqueWorkerCount flws clMap (ds.get ⟨i, hd⟩) lookback_days := by
  refine ⟨buildClumpedAux_length h, ?_⟩
  intro i hi hd
  obtain ⟨-, -, s, hcf, -, hcount⟩ := buildClumpedAux_get ds 0 cp h i hi hd
  rw [hcount, collectFlws_spec hk hcf]

/-- Witness for C4 at the spec's §8 lookback example: workers 1 and 2
complete clumped units on days 0 and 2; with lookback 3 the distinct-worker
count is 2 on day 2 and 1 on day 4. -/
theorem coverage_C4_witness :
    (clMapLookback.map Prod.fst).Nodup ∧
    buildClumpedAux flwsPair clMapLookback 0 3 0 (denseDates 0 4)
      = Except.ok cpLookback ∧
    (cpLookback.length = (denseDates 0 4).length ∧
     ∀ (i : Nat) (hi : i < cpLookback.length) (hd : i < (denseDates 0 4).length),
       (cpLookback.get ⟨i, hi⟩).unique_flws_count_in_lookback
         = specUniqueWorkerCount flwsPair clMapLookback
             ((denseDates 0 4).get ⟨i, hd⟩) 3) ∧
    specUniqueWorkerCount flwsPair clMapLookback 2 3 = 2 ∧
    specUniqueWorkerCount flwsPair clMapLookback 4 3 = 1 :=
  ⟨by decide, by decide,
    coverage_C4_unique_worker_window flwsPair clMapLookback (by decide) 0 3
      (denseDates 0 4) cpLookback (by decide),
    by decide, by decide⟩

end Coverage
